import Mathlib

/-!
Verification of the session-lifecycle controller of the leo-medico front-end.

The development shallowly embeds the client-side logic:
* the Transcript Accumulator (`components/logic/context.tsx`, `handleNewSegment`,
  `handleEndMessage`) — JS strings are modelled as `List Char`, so JS
  `trim`, `endsWith`, `includes` and `slice(-n)` become executable list
  functions;
* the Session Finalizer (`app/interactive-session/page.tsx`,
  `stopAndFinalizeSession`) and the historical variant of the same function
  embedded in `app/dashboard/route.ts`;
* the Countdown Timer effect and the session-entry precondition check of
  `app/interactive-session/page.tsx`.
-/

/-- JS strings are sequences of characters; we model them as `List Char`. -/
abbrev Str := List Char

/-- Character list of a Lean string literal (used for concrete inputs). -/
def str (s : String) : Str := s.data

/-- JS `String.prototype.trim`: drop leading and trailing whitespace. -/
def trimStr (s : Str) : Str :=
  ((s.dropWhile Char.isWhitespace).reverse.dropWhile Char.isWhitespace).reverse

/-- JS `s.includes(t)`: `t` occurs contiguously somewhere inside `s`. -/
def strIncludes (s t : Str) : Bool :=
  match s with
  | [] => t.isEmpty
  | _ :: rest => t.isPrefixOf s || strIncludes rest t

/-- JS `s.endsWith(t)` for the segment texts: `t` is a suffix of `s`. -/
def strEndsWith (s t : Str) : Bool :=
  List.isSuffixOf t s

/-- JS `s.slice(-n)`: the last `n` characters of `s` (all of `s` if `n ≥ s.length`). -/
def sliceLast (s : Str) (n : Nat) : Str :=
  s.drop (s.length - n)

/-- Enumeration `MessageSender` from `components/logic/context.tsx`. -/
inductive MessageSender
  | CLIENT
  | AVATAR
deriving DecidableEq

/-- Structure `Message` from `components/logic/context.tsx`: `{ id, sender, content }`. -/
structure Message where
  id : Str
  sender : MessageSender
  content : Str
deriving DecidableEq

/-- The message-accumulator state of `useStreamingAvatarMessageState`:
the `messages` array plus the two refs `currentSenderRef` and
`currentMessageIdRef`. -/
structure AccState where
  messages : List Message
  currentSender : Option MessageSender
  currentMessageId : Option Str
deriving DecidableEq

/-- The initial accumulator state: empty message list, both refs `null`. -/
def initAccState : AccState := ⟨[], none, none⟩

/-- The sender tag used inside generated message ids. -/
def senderTag : MessageSender → Str
  | .CLIENT => str "CLIENT"
  | .AVATAR => str "AVATAR"

/-- The id of a newly started message:
`Date.now().toString() + '_' + sender + '_' + messageId`
(`Date.now()` is modelled by the `now : Nat` parameter). -/
def mkMessageId (now : Nat) (sender : MessageSender) (messageId : Str) : Str :=
  str (Nat.repr now) ++ ['_'] ++ senderTag sender ++ ['_'] ++ messageId

/-- The check `lastContent.endsWith(' ') || lastContent.endsWith('.') ||
lastContent.endsWith('?') || lastContent.endsWith('!')` from
`handleNewSegment`. -/
def endsInBreak (s : Str) : Bool :=
  match s.getLast? with
  | some c => c == ' ' || c == '.' || c == '?' || c == '!'
  | none => false

/-- The duplicate test of `handleNewSegment` (lines 159-165 of
`components/logic/context.tsx`): the first branch drops a segment whose
trimmed text is a suffix of the open content, the second drops one that
occurs inside the last `2 * t.length` characters of the open content. -/
def isDupSegment (lastContent t : Str) : Bool :=
  strEndsWith lastContent t ||
    (strIncludes lastContent t && strIncludes (sliceLast lastContent (2 * t.length)) t)

/-- The `content` of the last message of the list (the open message);
`[]` when there is none.  Models `safePrev[safePrev.length - 1].content`. -/
def lastContentOf (st : AccState) : Str :=
  (st.messages.getLastD ⟨[], .CLIENT, []⟩).content

/-- The `contentToAdd` computation of `handleNewSegment`:
`(lastContent.endsWith(' ')||...) ? t : (lastContent ? ' ' : '') + t`. -/
def contentToAdd (lastContent t : Str) : Str :=
  if endsInBreak lastContent then t
  else (if lastContent = [] then [] else [' ']) ++ t

/-- The same-sender / same-id branch of `handleNewSegment` (lines 148-174 of
`components/logic/context.tsx`): drop a duplicate segment, or append
`contentToAdd` to the last message's content. -/
def appendToLast (t : Str) (st : AccState) : AccState :=
  if strEndsWith (lastContentOf st) t then st
  else if strIncludes (lastContentOf st) t &&
      strIncludes (sliceLast (lastContentOf st) (2 * t.length)) t then st
  else
    { st with
        messages := st.messages.dropLast ++
          [{ st.messages.getLastD ⟨[], .CLIENT, []⟩ with
              content := lastContentOf st ++ contentToAdd (lastContentOf st) t }] }

/-- Function `handleNewSegment(newSegment, sender, messageId)` from
`components/logic/context.tsx` lines 134-189, as a transition on `AccState`.
`now` models `Date.now()`. -/
def handleNewSegment (now : Nat) (newSegment : Str) (sender : MessageSender)
    (messageId : Str) (st : AccState) : AccState :=
  if trimStr newSegment = [] then st
  else if st.currentSender = some sender ∧ st.currentMessageId = some messageId ∧
      st.messages ≠ [] then
    appendToLast (trimStr newSegment) st
  else
    { messages := st.messages ++
        [⟨mkMessageId now sender messageId, sender, trimStr newSegment⟩],
      currentSender := some sender,
      currentMessageId := some messageId }

/-- Function `handleEndMessage` from `components/logic/context.tsx` lines 222-228:
clear both refs so that the next segment starts a new message. -/
def handleEndMessage (st : AccState) : AccState :=
  { st with currentSender := none, currentMessageId := none }

/-- Feed a list of segment texts, all with the same sender and utterance id,
to the accumulator in order. -/
def feedSegments (now : Nat) (sender : MessageSender) (messageId : Str)
    (ts : List Str) (st : AccState) : AccState :=
  ts.foldl (fun s u => handleNewSegment now u sender messageId s) st

/-- The joining rule of the spec: append with a single separating space
unless the existing content already ends in `' '`, `'.'`, `'?'` or `'!'`. -/
def joinWithSpace (acc t : Str) : Str :=
  if endsInBreak acc then acc ++ t else acc ++ [' '] ++ t

/-- No segment of the run is dropped by the accumulator's duplicate test,
relative to the content accumulated so far. -/
def noDupRun (acc : Str) : List Str → Bool
  | [] => true
  | u :: us => !isDupSegment acc (trimStr u) && noDupRun (joinWithSpace acc (trimStr u)) us

example : trimStr (str "  Hola ") = str "Hola" := by decide
example : strIncludes (str "hola mundo") (str "a mu") = true := by decide
example : strIncludes (str "hola") (str "ab") = false := by decide
example : sliceLast (str "abcdef") 2 = str "ef" := by decide
example :
    feedSegments 0 .CLIENT (str "u1") [str "Hola", str " doctora "] initAccState =
      ⟨[⟨mkMessageId 0 .CLIENT (str "u1"), .CLIENT, str "Hola doctora"⟩],
        some .CLIENT, some (str "u1")⟩ := by decide

/-- If `t` occurs in a `drop` of `s` then it occurs in `s` itself. -/
theorem strIncludes_of_drop {t : Str} :
    ∀ (s : Str) (k : Nat), strIncludes (s.drop k) t = true → strIncludes s t = true
  | _, 0, h => h
  | [], _ + 1, h => h
  | c :: cs, k + 1, h => by
      rw [List.drop_succ_cons] at h
      have hrec := strIncludes_of_drop cs k h
      simp [strIncludes, hrec]

/-- Appending one non-dropped segment to the open message extends its
content by `contentToAdd`. -/
theorem appendToLast_eq (t : Str) (ms : List Message) (i acc : Str)
    (sender : MessageSender) (s' : Option MessageSender) (m' : Option Str)
    (hdup : isDupSegment acc t = false) :
    appendToLast t ⟨ms ++ [⟨i, sender, acc⟩], s', m'⟩ =
      ⟨ms ++ [⟨i, sender, acc ++ contentToAdd acc t⟩], s', m'⟩ := by
  rw [isDupSegment, Bool.or_eq_false_iff] at hdup
  simp [appendToLast, lastContentOf, List.getLastD_concat, hdup.1, hdup.2]

/-- Joining onto a non-empty accumulator yields a non-empty string. -/
theorem joinWithSpace_ne_nil {acc : Str} (t : Str) (h : acc ≠ []) :
    joinWithSpace acc t ≠ [] := by
  unfold joinWithSpace
  split <;> simp [h]

/-- Appending `contentToAdd acc t` to `acc` is exactly the spec-level join when the
accumulated content is non-empty. -/
theorem append_contentToAdd (acc t : Str) (h : acc ≠ []) :
    acc ++ contentToAdd acc t = joinWithSpace acc t := by
  unfold contentToAdd joinWithSpace
  split
  · rfl
  · simp [h]

/-- Feeding further same-sender same-id segments into a state whose open
message has content `acc` folds them into that message via `joinWithSpace`. -/
theorem feedSegments_append (now : Nat) (sender : MessageSender) (mid : Str) :
    ∀ (ts : List Str) (ms : List Message) (i acc : Str), acc ≠ [] →
      (∀ u ∈ ts, trimStr u ≠ []) → noDupRun acc ts = true →
      feedSegments now sender mid ts ⟨ms ++ [⟨i, sender, acc⟩], some sender, some mid⟩ =
        ⟨ms ++ [⟨i, sender, ts.foldl (fun a u => joinWithSpace a (trimStr u)) acc⟩],
          some sender, some mid⟩
  | [], ms, i, acc, _, _, _ => by simp [feedSegments]
  | u :: us, ms, i, acc, hacc, hts, hnd => by
      rw [noDupRun, Bool.and_eq_true, Bool.not_eq_true'] at hnd
      have hu : trimStr u ≠ [] := hts u (List.mem_cons_self u us)
      have hstep : handleNewSegment now u sender mid
          ⟨ms ++ [⟨i, sender, acc⟩], some sender, some mid⟩ =
          ⟨ms ++ [⟨i, sender, joinWithSpace acc (trimStr u)⟩], some sender, some mid⟩ := by
        rw [handleNewSegment, if_neg hu, if_pos ⟨rfl, rfl, by simp⟩,
          appendToLast_eq _ _ _ _ _ _ _ hnd.1, append_contentToAdd _ _ hacc]
      have hrec := feedSegments_append now sender mid us ms i
        (joinWithSpace acc (trimStr u)) (joinWithSpace_ne_nil _ hacc)
        (fun v hv => hts v (List.mem_cons_of_mem u hv)) hnd.2
      simpa [feedSegments, hstep] using hrec

/-- C2: for a sequence of non-empty segments delivered with one speaker
and one utterance id, none of which is dropped by the accumulator's
duplicate test, exactly one message is produced; its content is the trimmed
texts joined in arrival order with a single space, except that no space is
inserted when the content so far already ends in `' '`, `'.'`, `'?'` or
`'!'`. -/
theorem transcript_single_message (now : Nat) (sender : MessageSender) (mid : Str)
    (t0 : Str) (rest : List Str)
    (h0 : trimStr t0 ≠ []) (hrest : ∀ u ∈ rest, trimStr u ≠ [])
    (hnd : noDupRun (trimStr t0) rest = true) :
    feedSegments now sender mid (t0 :: rest) initAccState =
      ⟨[⟨mkMessageId now sender mid, sender,
          rest.foldl (fun a u => joinWithSpace a (trimStr u)) (trimStr t0)⟩],
        some sender, some mid⟩ := by
  have h1 : handleNewSegment now t0 sender mid initAccState =
      ⟨[⟨mkMessageId now sender mid, sender, trimStr t0⟩], some sender, some mid⟩ := by
    rw [handleNewSegment, if_neg h0, if_neg (by simp [initAccState])]
    rfl
  have h2 := feedSegments_append now sender mid rest []
    (mkMessageId now sender mid) (trimStr t0) h0 hrest hnd
  simpa [feedSegments, h1] using h2

/-- Witness for C2: the spec's own example, `"Hola"` then `" doctora "`
under one utterance id, yields the single message `"Hola doctora"`. -/
theorem transcript_single_message_witness :
    feedSegments 5 .CLIENT (str "u1") [str "Hola", str " doctora "] initAccState =
      ⟨[⟨mkMessageId 5 .CLIENT (str "u1"), .CLIENT, str "Hola doctora"⟩],
        some .CLIENT, some (str "u1")⟩ := by
  have h := transcript_single_message 5 .CLIENT (str "u1") (str "Hola")
    [str " doctora "] (by decide) (by decide) (by decide)
  rw [h]
  decide

/-- C7: a segment whose trimmed text is identical to, or a suffix of,
the open message's content (same speaker, same utterance id) leaves the
state — message list and refs — completely unchanged. -/
theorem transcript_suffix_segment_noop (now : Nat) (text : Str)
    (sender : MessageSender) (mid : Str) (ms : List Message) (i c : Str)
    (h1 : trimStr text ≠ [])
    (h2 : strEndsWith c (trimStr text) = true) :
    handleNewSegment now text sender mid ⟨ms ++ [⟨i, sender, c⟩], some sender, some mid⟩ =
      ⟨ms ++ [⟨i, sender, c⟩], some sender, some mid⟩ := by
  rw [handleNewSegment, if_neg h1, if_pos ⟨rfl, rfl, by simp⟩]
  rw [appendToLast]
  simp [lastContentOf, List.getLastD_concat, h2]

/-- Witness for C7: re-delivering the tail `" hola"` of the open message
`"digo hola"` is a no-op. -/
theorem transcript_suffix_segment_noop_witness :
    handleNewSegment 7 (str " hola") .CLIENT (str "u2")
        ⟨[⟨str "m1", .CLIENT, str "digo hola"⟩], some .CLIENT, some (str "u2")⟩ =
      ⟨[⟨str "m1", .CLIENT, str "digo hola"⟩], some .CLIENT, some (str "u2")⟩ :=
  transcript_suffix_segment_noop 7 (str " hola") .CLIENT (str "u2") []
    (str "m1") (str "digo hola") (by decide) (by decide)

/-- C10: the accumulator also drops a non-empty same-speaker same-id
segment whenever its trimmed text occurs anywhere within the last
`2 × (segment length)` characters of the open message's content — even when
it is not a suffix — leaving the message list unchanged. -/
theorem transcript_overlap_heuristic_drops (now : Nat) (text : Str)
    (sender : MessageSender) (mid : Str) (ms : List Message) (i c : Str)
    (h1 : trimStr text ≠ [])
    (h2 : strIncludes (sliceLast c (2 * (trimStr text).length)) (trimStr text) = true) :
    handleNewSegment now text sender mid ⟨ms ++ [⟨i, sender, c⟩], some sender, some mid⟩ =
      ⟨ms ++ [⟨i, sender, c⟩], some sender, some mid⟩ := by
  have h3 : strIncludes c (trimStr text) = true := strIncludes_of_drop c _ h2
  rw [handleNewSegment, if_neg h1, if_pos ⟨rfl, rfl, by simp⟩]
  rw [appendToLast]
  by_cases hs : strEndsWith c (trimStr text) = true
  · simp [lastContentOf, List.getLastD_concat, hs]
  · rw [Bool.not_eq_true] at hs
    simp [lastContentOf, List.getLastD_concat, hs, h2, h3]

/-- Witness for C10: `"abc"` occurs in the last six characters of
`"zz abc q"` without being a suffix, yet the segment is discarded and the
list is unchanged — the spec's plain suffix rule would have appended it. -/
theorem transcript_overlap_heuristic_drops_witness :
    strEndsWith (str "zz abc q") (str "abc") = false ∧
    handleNewSegment 3 (str " abc ") .AVATAR (str "u3")
        ⟨[⟨str "m2", .AVATAR, str "zz abc q"⟩], some .AVATAR, some (str "u3")⟩ =
      ⟨[⟨str "m2", .AVATAR, str "zz abc q"⟩], some .AVATAR, some (str "u3")⟩ :=
  ⟨by decide,
    transcript_overlap_heuristic_drops 3 (str " abc ") .AVATAR (str "u3") []
      (str "m2") (str "zz abc q") (by decide) (by decide)⟩

/-- C8: the function `handleEndMessage` seals the open message by clearing both refs
and touches no message; after it — or whenever the ref'd sender differs
from the incoming one — the next non-empty segment starts a brand-new
message (appended at the end, id freshly built from the clock), even when
its utterance id equals that of the message just sealed. -/
theorem transcript_seal_and_new_message :
    (∀ st, (handleEndMessage st).messages = st.messages ∧
      (handleEndMessage st).currentSender = none ∧
      (handleEndMessage st).currentMessageId = none) ∧
    (∀ now text sender mid st, trimStr text ≠ [] →
      st.currentSender ≠ some sender →
      handleNewSegment now text sender mid st =
        ⟨st.messages ++ [⟨mkMessageId now sender mid, sender, trimStr text⟩],
          some sender, some mid⟩) ∧
    (∀ now text sender mid st, trimStr text ≠ [] →
      handleNewSegment now text sender mid (handleEndMessage st) =
        ⟨st.messages ++ [⟨mkMessageId now sender mid, sender, trimStr text⟩],
          some sender, some mid⟩) := by
  refine ⟨fun st => ⟨rfl, rfl, rfl⟩, ?_, ?_⟩
  · intro now text sender mid st h1 h2
    rw [handleNewSegment, if_neg h1, if_neg (fun hc => h2 hc.1)]
  · intro now text sender mid st h1
    rw [handleNewSegment, if_neg h1, if_neg (fun hc => Option.noConfusion hc.1)]
    rfl

/-- Witness for C8: after an end-of-utterance signal, a segment carrying the
very same utterance id `"u1"` starts a second message instead of being
merged into the sealed one. -/
theorem transcript_seal_and_new_message_witness :
    handleNewSegment 1 (str " ok") .CLIENT (str "u1")
        (handleEndMessage ⟨[⟨mkMessageId 0 .CLIENT (str "u1"), .CLIENT, str "Hola"⟩],
          some .CLIENT, some (str "u1")⟩) =
      ⟨[⟨mkMessageId 0 .CLIENT (str "u1"), .CLIENT, str "Hola"⟩,
          ⟨mkMessageId 1 .CLIENT (str "u1"), .CLIENT, str "ok"⟩],
        some .CLIENT, some (str "u1")⟩ := by
  have h := transcript_seal_and_new_message.2.2 1 (str " ok") .CLIENT (str "u1")
    ⟨[⟨mkMessageId 0 .CLIENT (str "u1"), .CLIENT, str "Hola"⟩],
      some .CLIENT, some (str "u1")⟩ (by decide)
  simpa using h

/-- A blob; only its byte size matters to the finalizer's control flow.
`new Blob(chunks)` has size equal to the total size of the chunks. -/
structure Blob where
  size : Nat
deriving DecidableEq

/-- Outcome of an awaited `fetch`: 2xx response, non-2xx response, or a
network-level rejection (which throws). -/
inductive FetchOutcome
  | ok
  | httpErr
  | netErr
deriving DecidableEq

/-- The environment `stopAndFinalizeSession` of
`app/interactive-session/page.tsx` (lines 97-157) runs in: the refs it
reads and the outcomes of the two backend calls. -/
structure FinalizeEnv where
  recorderRecording : Bool
  hasLocalStream : Bool
  messages : List Message
  recordingTimer : Nat
  chunkSizes : List Nat
  jwt : Option Str
  uploadRes : FetchOutcome
  uploadKey : Str
  logRes : FetchOutcome
deriving DecidableEq

/-- The value `new Blob(recordedChunks.current, ...)`: a (non-null) blob whose size is
the total of the chunk sizes. -/
def videoBlobA (chunkSizes : List Nat) : Blob :=
  ⟨chunkSizes.foldl (· + ·) 0⟩

/-- The transcript `messages.filter(m => m.sender === s).map(m => m.content).join('\n')`. -/
def transcriptOf (s : MessageSender) (ms : List Message) : Str :=
  List.intercalate ['\n'] ((ms.filter (fun m => decide (m.sender = s))).map Message.content)

/-- Observable effects of one execution of the finalize body of
`app/interactive-session/page.tsx`. -/
structure FinalizeResult where
  avatarStopped : Bool
  recorderStopCalled : Bool
  tracksStopped : Bool
  videoBlob : Option Blob
  userTranscript : Str
  avatarTranscript : Str
  duration : Nat
  uploadAttempted : Bool
  videoS3Key : Option Str
  logAttempted : Bool
  logVideoKey : Option Str
  alerted : Bool
  navigated : Bool
deriving DecidableEq

/-- The body of `stopAndFinalizeSession` in
`app/interactive-session/page.tsx` lines 100-157 (after the guard): stop
the avatar, call `stop()` on a recording recorder, stop the local tracks,
compute transcripts and duration, build the blob from the chunks, upload it
when its size is positive (throwing on a missing JWT or a failed upload,
which the `catch` turns into an alert), send the session log (whose non-2xx
response is not checked), and navigate in the `finally`. -/
def finalizeBodyA (env : FinalizeEnv) : FinalizeResult :=
  let blob := videoBlobA env.chunkSizes
  let base : FinalizeResult :=
    { avatarStopped := true
      recorderStopCalled := env.recorderRecording
      tracksStopped := env.hasLocalStream
      videoBlob := some blob
      userTranscript := transcriptOf .CLIENT env.messages
      avatarTranscript := transcriptOf .AVATAR env.messages
      duration := 480 - env.recordingTimer
      uploadAttempted := false
      videoS3Key := none
      logAttempted := false
      logVideoKey := none
      alerted := false
      navigated := true }
  if 0 < blob.size then
    match env.jwt with
    | none => { base with alerted := true }
    | some _ =>
      match env.uploadRes with
      | .netErr => { base with uploadAttempted := true, alerted := true }
      | .httpErr => { base with uploadAttempted := true, alerted := true }
      | .ok =>
        match env.logRes with
        | .netErr =>
            { base with
                uploadAttempted := true
                videoS3Key := some env.uploadKey
                logAttempted := true
                logVideoKey := some env.uploadKey
                alerted := true }
        | _ =>
            { base with
                uploadAttempted := true
                videoS3Key := some env.uploadKey
                logAttempted := true
                logVideoKey := some env.uploadKey }
  else
    match env.logRes with
    | .netErr => { base with logAttempted := true, alerted := true }
    | _ => { base with logAttempted := true }

/-- The condition under which `finalizeBodyA` raises the user-facing alert:
the upload step throws (missing JWT, non-OK response or network error), or
the session-log request itself rejects at the network level. -/
def alertCondA (env : FinalizeEnv) : Bool :=
  if 0 < (videoBlobA env.chunkSizes).size then
    match env.jwt with
    | none => true
    | some _ =>
      match env.uploadRes with
      | .ok => decide (env.logRes = .netErr)
      | _ => true
  else decide (env.logRes = .netErr)

/-- The state of the `isFinalizingRef` latch plus a counter of how many
times the finalize body has actually run. -/
structure GuardState where
  finalizing : Bool
  execCount : Nat
deriving DecidableEq

/-- One invocation of `stopAndFinalizeSession` in
`app/interactive-session/page.tsx`: `if (isFinalizingRef.current ||
!sessionInfo) return; isFinalizingRef.current = true; ...` — the latch is
set once and the file never resets it. -/
def finalizeInvokeA (hasSessionInfo : Bool) (g : GuardState) : GuardState :=
  if g.finalizing = true ∨ hasSessionInfo = false then g
  else ⟨true, g.execCount + 1⟩

/-- Run of `n` successive invocations of `stopAndFinalizeSession` (page.tsx) with
session info present, starting from the fresh latch. -/
def invokeRunA : Nat → GuardState
  | 0 => ⟨false, 0⟩
  | n + 1 => finalizeInvokeA true (invokeRunA n)

/-- The environment of the historical `stopAndFinalizeSession` variant kept
in `app/dashboard/route.ts` (lines 211-362). -/
structure FinalizeEnvB where
  recorderExists : Bool
  chunkSizes : List Nat
  uploadRes : FetchOutcome
  logRes : FetchOutcome
deriving DecidableEq

/-- The `finalVideoBlob` of the route.ts variant: built only when a recorder
instance existed and at least one chunk was collected (lines 229-266). -/
def videoBlobB (env : FinalizeEnvB) : Option Blob :=
  if env.recorderExists then
    if env.chunkSizes ≠ [] then some ⟨env.chunkSizes.foldl (· + ·) 0⟩ else none
  else none

/-- One invocation of the route.ts variant of `stopAndFinalizeSession`,
tracking only the latch and the execution count: the latch is set on entry
(line 216), but a non-OK `/upload_video` response executes
`isFinalizingRef.current = false; return;` (lines 324-325) — resetting the
latch — while a network-level rejection is caught with the latch left set. -/
def finalizeInvokeB (env : FinalizeEnvB) (g : GuardState) : GuardState :=
  if g.finalizing = true then g
  else
    match videoBlobB env with
    | some _ =>
      match env.uploadRes with
      | .httpErr => ⟨false, g.execCount + 1⟩
      | _ => ⟨true, g.execCount + 1⟩
    | none => ⟨true, g.execCount + 1⟩

/-- A concrete run of the route.ts variant: a recorder with one 100-byte
chunk and an upload that answers non-2xx. -/
def envB0 : FinalizeEnvB := ⟨true, [100], .httpErr, .ok⟩

/-- C1 counterexample: in the route.ts variant, with one recorded chunk
and a non-2xx upload response, the first invocation runs the body and ends
with the latch reset to `false`, and a second invocation runs the full body
again (`execCount = 2`) — so the latch is not "never reset" and a later
invocation is not a no-op. -/
theorem finalize_guard_reset_counterexample :
    (finalizeInvokeB envB0 ⟨false, 0⟩).finalizing = false ∧
    finalizeInvokeB envB0 (finalizeInvokeB envB0 ⟨false, 0⟩) = ⟨false, 2⟩ := by
  decide

/-- C1 amended: in `app/interactive-session/page.tsx` the latch, once
set, is never reset by any invocation; with session info present, any
`n ≥ 1` invocations run the stop/upload/navigate body exactly once; and
every invocation after the first leaves the state unchanged. -/
theorem finalize_guard_once_pageTsx :
    (∀ g b, g.finalizing = true → finalizeInvokeA b g = g) ∧
    (∀ n, 1 ≤ n → invokeRunA n = ⟨true, 1⟩) ∧
    (∀ n, 1 ≤ n → invokeRunA (n + 1) = invokeRunA n) := by
  have key : ∀ m, invokeRunA (m + 1) = ⟨true, 1⟩ := by
    intro m
    induction m with
    | zero => rfl
    | succ k ih => rw [invokeRunA, ih]; rfl
  refine ⟨?_, ?_, ?_⟩
  · intro g b hg
    simp [finalizeInvokeA, hg]
  · intro n hn
    obtain ⟨m, rfl⟩ := Nat.exists_eq_add_of_le hn
    rw [Nat.add_comm 1 m]
    exact key m
  · intro n hn
    obtain ⟨m, rfl⟩ := Nat.exists_eq_add_of_le hn
    rw [Nat.add_comm 1 m, key (m + 1), key m]

/-- Witness for the amended C1: a latched state absorbs any further call,
and runs of 3 and 4 invocations agree with execution count 1. -/
theorem finalize_guard_once_pageTsx_witness :
    finalizeInvokeA false ⟨true, 5⟩ = ⟨true, 5⟩ ∧
    invokeRunA 3 = ⟨true, 1⟩ ∧ invokeRunA 4 = invokeRunA 3 :=
  ⟨finalize_guard_once_pageTsx.1 ⟨true, 5⟩ false rfl,
    finalize_guard_once_pageTsx.2.1 3 (by decide),
    finalize_guard_once_pageTsx.2.2 3 (by decide)⟩

/-- C4 amended: the page.tsx finalize body always ends by navigating
to the dashboard, whatever the upload and log outcomes; the error notice is
raised exactly when the upload step throws (missing JWT, non-OK response,
network error) or the session-log request rejects at the network level — a
non-2xx session-log response navigates silently. -/
theorem finalize_always_navigates :
    ∀ env : FinalizeEnv, (finalizeBodyA env).navigated = true ∧
      (finalizeBodyA env).alerted = alertCondA env := by
  intro env
  obtain ⟨rec, hls, msgs, timer, chunks, jwt, upRes, upKey, logRes⟩ := env
  by_cases h : 0 < (videoBlobA chunks).size <;>
    cases jwt <;> cases upRes <;> cases logRes <;>
      simp [finalizeBodyA, alertCondA, h]

/-- A finalize environment whose session-log request answers non-2xx. -/
def envLogFail : FinalizeEnv :=
  ⟨false, false, [], 0, [], none, .ok, [], .httpErr⟩

/-- C4 counterexample: when the session-log submission fails with a
non-2xx response, page.tsx still navigates but surfaces no error notice —
contradicting "surfacing an error notice on failure". -/
theorem finalize_log_failure_no_alert :
    (finalizeBodyA envLogFail).navigated = true ∧
    (finalizeBodyA envLogFail).logAttempted = true ∧
    envLogFail.logRes = .httpErr ∧
    (finalizeBodyA envLogFail).alerted = false := by
  decide

/-- C6 amended: with an empty chunk list the page.tsx finalize body
builds an empty but non-null blob of size 0, skips the upload entirely, and
still submits the session log with a null video key. -/
theorem finalize_empty_chunks (env : FinalizeEnv) (h : env.chunkSizes = []) :
    (finalizeBodyA env).videoBlob = some ⟨0⟩ ∧
    (finalizeBodyA env).uploadAttempted = false ∧
    (finalizeBodyA env).videoS3Key = none ∧
    (finalizeBodyA env).logAttempted = true ∧
    (finalizeBodyA env).logVideoKey = none := by
  obtain ⟨rec, hls, msgs, timer, chunks, jwt, upRes, upKey, logRes⟩ := env
  cases h
  cases logRes <;> simp [finalizeBodyA, videoBlobA]

/-- A finalize environment in which the recorder captured zero chunks. -/
def envNoChunks : FinalizeEnv :=
  ⟨true, true, [], 480, [], some (str "jwt"), .ok, str "k", .ok⟩

/-- C6 counterexample: with zero captured chunks the finalized video
blob is `some` empty blob, not `none` — the claim's "null rather than an
empty-but-non-null blob" fails on page.tsx. -/
theorem finalize_empty_chunks_nonnull_blob :
    envNoChunks.chunkSizes = [] ∧
    (finalizeBodyA envNoChunks).videoBlob = some ⟨0⟩ ∧
    (finalizeBodyA envNoChunks).videoBlob ≠ none := by
  decide

/-- Witness for the amended C6, at the concrete `envNoChunks`. -/
theorem finalize_empty_chunks_witness :
    (finalizeBodyA envNoChunks).uploadAttempted = false ∧
    (finalizeBodyA envNoChunks).logAttempted = true ∧
    (finalizeBodyA envNoChunks).logVideoKey = none := by
  have h := finalize_empty_chunks envNoChunks rfl
  exact ⟨h.2.1, h.2.2.2.1, h.2.2.2.2⟩

/-- The ordered abstract actions a finalize execution performs. -/
inductive FinAction
  | stopAvatarCall
  | recorderStopCall
  | awaitOnStop
  | stopTracksCall
  | readChunks
  | uploadCall
  | logCall
  | navigateCall
deriving DecidableEq

/-- Whether the upload stage of page.tsx completes without throwing, so
that control reaches the session-log request. -/
def uploadStagePassesA (env : FinalizeEnv) : Bool :=
  if 0 < (videoBlobA env.chunkSizes).size then
    env.jwt.isSome && decide (env.uploadRes = .ok)
  else true

/-- The action sequence of `stopAndFinalizeSession` in
`app/interactive-session/page.tsx` (lines 100-157): `stopAvatar()`;
`mediaRecorderRef.current.stop()` when recording; stop the local tracks;
then — synchronously, in the same continuation — `new
Blob(recordedChunks.current, ...)` reads the chunk buffer; upload and log
as the environment allows; navigate.  No `onstop` completion is ever
awaited anywhere in this function. -/
def finalizeTraceA (env : FinalizeEnv) : List FinAction :=
  [.stopAvatarCall]
    ++ (if env.recorderRecording = true then [.recorderStopCall] else [])
    ++ (if env.hasLocalStream = true then [.stopTracksCall] else [])
    ++ [.readChunks]
    ++ (if 0 < (videoBlobA env.chunkSizes).size ∧ env.jwt.isSome = true then
          [.uploadCall] else [])
    ++ (if uploadStagePassesA env = true then [.logCall] else [])
    ++ [.navigateCall]

/-- C3: in every execution of the page.tsx finalize body the chunk
buffer is read (the blob is constructed), yet the recorder's
stop-completion event is never awaited: the trace contains `readChunks` and
contains no `awaitOnStop`, so the blob is always assembled before `onstop`
can have fired. -/
theorem finalizeA_reads_chunks_without_awaiting_stop :
    ∀ env : FinalizeEnv, FinAction.readChunks ∈ finalizeTraceA env ∧
      FinAction.awaitOnStop ∉ finalizeTraceA env := by
  intro env
  constructor <;> (unfold finalizeTraceA; split_ifs <;> decide)

/-- State of the countdown effect of `app/interactive-session/page.tsx`
(lines 235-250): `recordingTimer` (started at `useState(480)`), whether the
interval is still installed, and how many times the tick body has called
`stopAndFinalizeSession`. -/
structure TimerState where
  timer : Int
  intervalActive : Bool
  finalizeCalls : Nat
deriving DecidableEq

/-- The initial clock: 480 seconds, interval installed, finalizer uncalled. -/
def initTimer : TimerState := ⟨480, true, 0⟩

/-- One 1-second tick of the countdown effect.  The interval only exists
while `sessionState === CONNECTED`; the tick body is
`prev <= 1 ? (clearInterval; stopAndFinalizeSession(...); 0) : prev - 1`. -/
def timerTick (connected : Bool) (st : TimerState) : TimerState :=
  if connected = false then st
  else if st.intervalActive = false then st
  else if st.timer ≤ 1 then ⟨0, false, st.finalizeCalls + 1⟩
  else ⟨st.timer - 1, true, st.finalizeCalls⟩

/-- Run of `n` seconds of a connected session starting from the fresh clock. -/
def timerRun : Nat → TimerState
  | 0 => initTimer
  | n + 1 => timerTick true (timerRun n)

/-- C5: the countdown starts at 480, ticks only while the session is
CONNECTED (a disconnected tick is the identity), decrements by exactly one
per second, never goes below zero (`max (480 - n) 0`), and on the tick that
reaches zero clears its own interval and calls the Session Finalizer — so
the finalize-call count is 1 for every `n ≥ 480` and 0 before. -/
theorem countdown_clock_spec :
    (∀ st, timerTick false st = st) ∧
    ∀ n : Nat, timerRun n =
      ⟨max (480 - (n : Int)) 0, decide (n < 480), if 480 ≤ n then 1 else 0⟩ := by
  refine ⟨fun st => rfl, ?_⟩
  intro n
  induction n with
  | zero => rfl
  | succ m ih =>
    rw [timerRun, ih]
    rcases lt_trichotomy m 479 with hm | hm | hm
    · have hd : decide (m < 480) = true := decide_eq_true (by omega)
      rw [timerTick, if_neg (by simp), hd, if_neg (by simp),
        if_neg (by dsimp only; omega)]
      dsimp only
      simp only [TimerState.mk.injEq]
      refine ⟨by omega, (decide_eq_true (by omega : m + 1 < 480)).symm, ?_⟩
      rw [if_neg (by omega : ¬ 480 ≤ m), if_neg (by omega : ¬ 480 ≤ m + 1)]
    · subst hm
      decide
    · have hd : decide (m < 480) = false := decide_eq_false (by omega)
      rw [timerTick, if_neg (by simp), hd, if_pos rfl]
      simp only [TimerState.mk.injEq]
      refine ⟨by omega, ?_, ?_⟩
      · exact (decide_eq_false (by omega : ¬ m + 1 < 480)).symm
      · rw [if_pos (by omega : 480 ≤ m), if_pos (by omega : 480 ≤ m + 1)]

/-- The query parameters available at session-page entry
(`useSearchParams`): `searchParams.get(...)` yields `null` or a string. -/
structure QueryParams where
  name : Option Str
  email : Option Str
  scenario : Option Str
  token : Option Str
deriving DecidableEq

/-- JS truthiness of a `searchParams.get` result: `null` and the empty
string are falsy. -/
def truthy : Option Str → Bool
  | none => false
  | some s => !s.isEmpty

/-- The `sessionInfo` object built at entry. -/
structure SessionInfo where
  name : Str
  email : Str
  scenario : Str
deriving DecidableEq

/-- What the entry effect does: start the session with the info, or
redirect to the dashboard. -/
inductive EntryOutcome
  | proceed (info : SessionInfo)
  | redirectDashboard
deriving DecidableEq

/-- The entry effect of `InteractiveSessionContent` in
`app/interactive-session/page.tsx` lines 83-95: read `name`, `email` and
`scenario` from the URL query; `if (name && email && scenario)
setSessionInfo({...}) else router.push('/dashboard')`.  The `token`
parameter and the cookies are not consulted. -/
def sessionEntryA (q : QueryParams) : EntryOutcome :=
  if truthy q.name && truthy q.email && truthy q.scenario then
    .proceed ⟨q.name.getD [], q.email.getD [], q.scenario.getD []⟩
  else .redirectDashboard

/-- A query carrying `name`, `email` and `scenario` but no `token`. -/
def qNoToken : QueryParams :=
  ⟨some (str "Ana"), some (str "ana@x.mx"), some (str "Entrevista"), none⟩

/-- C9 counterexample: with the auth token absent (and hence not all
four fields present), the page still proceeds to set up the session
instead of redirecting — the four-field precondition of the claim fails on
`page.tsx`. -/
theorem sessionEntry_token_not_required :
    qNoToken.token = none ∧
    sessionEntryA qNoToken =
      .proceed ⟨str "Ana", str "ana@x.mx", str "Entrevista"⟩ ∧
    sessionEntryA qNoToken ≠ .redirectDashboard := by
  decide

/-- C9 amended: the entry check of `page.tsx` requires exactly the
three URL-query fields `name`, `email`, `scenario` to be present and
non-empty: it redirects to the dashboard iff one of them is missing, and
otherwise proceeds with precisely those three values; neither the `token`
parameter nor any cookie fallback takes part in the decision. -/
theorem sessionEntry_requires_three_fields :
    ∀ q : QueryParams,
      (sessionEntryA q = .redirectDashboard ↔
        (truthy q.name && truthy q.email && truthy q.scenario) = false) ∧
      ((truthy q.name && truthy q.email && truthy q.scenario) = true →
        sessionEntryA q =
          .proceed ⟨q.name.getD [], q.email.getD [], q.scenario.getD []⟩) := by
  intro q
  unfold sessionEntryA
  rcases h : truthy q.name && truthy q.email && truthy q.scenario with _ | _
  · simp
  · simp

/-- Witness for the amended C9: all three fields present and non-empty,
the entry proceeds with them. -/
theorem sessionEntry_requires_three_fields_witness :
    sessionEntryA ⟨some (str "A"), some (str "B"), some (str "C"), some (str "T")⟩ =
      .proceed ⟨str "A", str "B", str "C"⟩ := by
  have h := (sessionEntry_requires_three_fields
    ⟨some (str "A"), some (str "B"), some (str "C"), some (str "T")⟩).2 (by decide)
  rw [h]
  decide
